import Mathlib

/-!
Shallow embedding of `src/rest_server.rs` (crate `rustful`), a minimal
HTTP/1.1 server.  The pure parsing and dispatch logic is translated
directly.  The TCP stream is abstracted as the list of line-read results
that the `BufReader::lines()` iterator would yield, and the response that
would be written to the stream is returned as a string.
-/

namespace Rustful

/-- Unicode White_Space test: the character class matched by `\s` (and
complemented by `\S`) in the Rust `regex` crate's default Unicode mode. -/
def isWsChar (c : Char) : Bool :=
  let n := c.toNat
  n == 0x09 || n == 0x0a || n == 0x0b || n == 0x0c || n == 0x0d || n == 0x20 ||
  n == 0x85 || n == 0xa0 || n == 0x1680 || decide (0x2000 ≤ n ∧ n ≤ 0x200a) ||
  n == 0x2028 || n == 0x2029 || n == 0x202f || n == 0x205f || n == 0x3000

/-- Strips the literal `lit` from the front of `cs`, returning the rest. -/
def stripLit : List Char → List Char → Option (List Char)
  | [], cs => some cs
  | _ :: _, [] => none
  | a :: la, b :: lb => if a = b then stripLit la lb else none

/-- One alternative of the method group: on success returns the matched
token together with the remainder of the input. -/
def stripMethodWith (m : List Char) (cs : List Char) : Option (List Char × List Char) :=
  (stripLit m cs).map (fun rest => (m, rest))

/-- The alternation `(GET|POST|OPTION|PUT|DELETE)` of `HTTP_REGEX_PATTERN`,
tried in pattern order at the current position.  At most one alternative
can succeed at a given position, since no token is a prefix of another. -/
def stripMethod (cs : List Char) : Option (List Char × List Char) :=
  stripMethodWith "GET".toList cs <|> stripMethodWith "POST".toList cs <|>
  stripMethodWith "OPTION".toList cs <|> stripMethodWith "PUT".toList cs <|>
  stripMethodWith "DELETE".toList cs

/-- Attempts to match `HTTP_REGEX_PATTERN`, i.e.
`(GET|POST|OPTION|PUT|DELETE)\s(\/[\S]*)\s([\S]+)$`, starting exactly at
the head of `cs` and — because of the trailing `$` — extending to the end
of the input.  On success returns the capture groups
`(whole, method, path, protocol)`.  Backtracking is irrelevant for this
pattern: `[\S]` can never consume a character that `\s` accepts, so the
extent of every sub-pattern is forced and the greedy parse is the only
candidate. -/
def tryMatchAt (cs : List Char) : Option (List Char × List Char × List Char × List Char) :=
  match stripMethod cs with
  | none => none
  | some (m, r1) =>
    match r1 with
    | [] => none
    | w1 :: r2 =>
      if isWsChar w1 then
        match r2 with
        | [] => none
        | c :: r3 =>
          if c = '/' then
            match r3.dropWhile (fun d => !(isWsChar d)) with
            | [] => none
            | w2 :: r5 =>
              if isWsChar w2 then
                if !r5.isEmpty && r5.all (fun d => !(isWsChar d)) then
                  some (m ++ w1 :: c :: (r3.takeWhile (fun d => !(isWsChar d)) ++ w2 :: r5),
                        m, c :: r3.takeWhile (fun d => !(isWsChar d)), r5)
                else none
              else none
          else none
      else none

/-- Leftmost match of `HTTP_REGEX_PATTERN`: the starting positions are
tried from the left, as `Regex::captures` does.  (The pattern cannot match
the empty suffix, since the method token is non-empty.) -/
def findCapturesL : List Char → Option (List Char × List Char × List Char × List Char)
  | [] => none
  | c :: rest =>
    match tryMatchAt (c :: rest) with
    | some caps => some caps
    | none => findCapturesL rest

/-- The capture list produced by a successful `re.captures(line)`:
group 0 (the whole match) followed by the three parenthesised groups.
All groups of this pattern participate in every match. -/
def httpRegexCaptures (line : String) : Option (List String) :=
  (findCapturesL line.toList).map
    (fun caps => [String.mk caps.1, String.mk caps.2.1, String.mk caps.2.2.1, String.mk caps.2.2.2])

/-- Request-line shape in the words of spec §4.3, used only to compare the
spec's grammar with the compiled pattern: a method token from the fixed
set, one separator character accepted by `sep`, a path — one or more
non-whitespace characters beginning with a slash — one more separator, and
a protocol of one or more non-whitespace characters reaching the end of
the input.  `sep := (· == ' ')` reads the spec's "single space" literally;
`sep := isWsChar` is the single-whitespace-character variant.  Because the
path may contain no whitespace and the separator after it is whitespace,
the path necessarily is the maximal non-whitespace run after the slash,
so the split below is the only possible one. -/
def isRequestLineForm (sep : Char → Bool) (cs : List Char) : Bool :=
  match stripMethod cs with
  | none => false
  | some (_, r1) =>
    match r1 with
    | [] => false
    | w1 :: r2 =>
      sep w1 &&
      (match r2 with
       | [] => false
       | c :: r3 =>
         (c == '/') &&
         (match r3.dropWhile (fun d => !(isWsChar d)) with
          | [] => false
          | w2 :: r5 =>
            sep w2 && !r5.isEmpty && r5.all (fun d => !(isWsChar d))))

/-- Holds when some suffix of the line has the request-line shape: the
pattern is anchored at the end of the line (`$`) but not at its start. -/
def hasRequestLineFormSuffix (sep : Char → Bool) : List Char → Bool
  | [] => false
  | c :: rest => isRequestLineForm sep (c :: rest) || hasRequestLineFormSuffix sep rest

/-- Substring test at the head of `hay` (`needle` is a prefix of `hay`). -/
def matchesAtHead : List Char → List Char → Bool
  | [], _ => true
  | _ :: _, [] => false
  | a :: la, b :: lb => (a == b) && matchesAtHead la lb

/-- Substring occurrence anywhere in `hay`. -/
def containsSubL (needle : List Char) : List Char → Bool
  | [] => needle.isEmpty
  | c :: t => matchesAtHead needle (c :: t) || containsSubL needle t

/-- Rust's `str::contains` on string slices. -/
def strContains (hay needle : String) : Bool :=
  containsSubL needle.toList hay.toList

/-- Error kinds of `std::io::ErrorKind` used by the source. -/
inductive ErrorKind
  | invalidInput
  | invalidData
  | other
  | connectionReset
deriving DecidableEq

/-- An `std::io::Error` built by `Error::new(kind, msg)`; its `Display`
output is `msg`. -/
structure IoError where
  kind : ErrorKind
  msg : String
deriving DecidableEq

/-- The `HttpMethod` enum of `rest_server.rs`. -/
inductive HttpMethod
  | GET
  | POST
deriving DecidableEq

/-- The `HttpRequest` struct of `rest_server.rs`. -/
structure HttpRequest where
  method : HttpMethod
  path : String
  headers : List (String × String)
  body : String

/-- A `Box<dyn Any>` success payload.  The `val` field records the boxed
value (as a string), but that value is unreachable through the `dyn Any`
interface: formatting goes through the `Debug` impl for `dyn Any`. -/
structure AnyBox where
  val : String
deriving DecidableEq

/-- Debug formatting (`format!` with the `:#?` specifier) of a
`Box<dyn Any>`: Rust std's `impl Debug for dyn Any` is
`f.debug_struct("Any").finish_non_exhaustive()` on every toolchain that
compiles this source (`OnceLock` needs Rust 1.70 or later), which prints
the fixed text `Any { .. }` — never the boxed value — in plain and
alternate mode alike, since the struct has no fields. -/
def dynAnyFmt (_ : AnyBox) : String := "Any { .. }"

/-- The `HandlerFunc` type alias of `rest_server.rs`. -/
abbrev HandlerFunc := HttpRequest → Except IoError AnyBox

/-- The `RestServer` struct of `rest_server.rs`.  The `HashMap` is modelled
as an association list whose single-key operations follow below. -/
structure RestServer where
  name : String
  addr : String
  port : Nat
  path_handler_map : List (String × HandlerFunc)

/-- `HashMap::contains_key`. -/
def hmContains (m : List (String × HandlerFunc)) (k : String) : Bool :=
  m.any (fun p => p.1 == k)

/-- `HashMap::get`. -/
def hmGet (m : List (String × HandlerFunc)) (k : String) : Option HandlerFunc :=
  (m.find? (fun p => p.1 == k)).map Prod.snd

/-- `HashMap::insert` (replacing any existing binding for `k`). -/
def hmInsert (m : List (String × HandlerFunc)) (k : String) (v : HandlerFunc) :
    List (String × HandlerFunc) :=
  (k, v) :: m.filter (fun p => !(p.1 == k))

/-- `RestServer::new` (lines 57-70 of `rest_server.rs`). -/
def RestServer.new (name addr : String) (port : Nat) : Except IoError RestServer :=
  if name = "" then
    .error ⟨.invalidInput, "RestServer: cannot create a new server with empty name"⟩
  else
    .ok ⟨name, addr, port, []⟩

/-- `RestServer::register_path` (lines 73-85).  Rust mutates `self` through
`&mut`; here the updated server is returned alongside the `Result`, and on
the duplicate-path error the server is returned unchanged, as the early
`return Err(..)` leaves it. -/
def register_path (s : RestServer) (path : String) (func : HandlerFunc) :
    Except IoError Unit × RestServer :=
  if hmContains s.path_handler_map path then
    (.error ⟨.other,
      "HttpServer [" ++ s.name ++ "] path [" ++ path ++ "]: attempted to set handler twice"⟩, s)
  else
    (.ok (), { s with path_handler_map := hmInsert s.path_handler_map path func })

/-- Outcome of one `handle_connection` call. -/
inductive ConnOutcome
  /-- The thread panicked: `result.unwrap()` (line 121) was applied to a
  failed read.  The payload records the read error. -/
  | panicked (e : IoError)
  /-- `handle_connection` returned `Err(e)` before writing anything. -/
  | errored (e : IoError)
  /-- `handle_connection` wrote `response` to the stream and returned
  `Ok(())`. -/
  | wrote (response : String)
deriving DecidableEq

/-- The line-collection step (lines 117-126):
`lines().map(|r| r.unwrap()).take_while(|l| !l.is_empty()).collect()`.
The iterator is lazy, so a failed read situated after the first empty line
is never reached; a failed read before it is `unwrap`ped and panics, which
is modelled as `Except.error`. -/
def collectRequestLines : List (Except IoError String) → Except IoError (List String)
  | [] => .ok []
  | .error e :: _ => .error e
  | .ok l :: rest =>
    if l = "" then .ok []
    else (collectRequestLines rest).map (fun ls => l :: ls)

/-- Rendering of the handler result into the response body (lines 210-213):
the debug format of the boxed payload on success, `error: ` followed by the
error's `Display` output on failure. -/
def renderResult (resp : Except IoError AnyBox) : String :=
  match resp with
  | .ok r => dynAnyFmt r
  | .error err => "error: " ++ err.msg

/-- `RestServer::handle_connection` (lines 112-223), with the stream
abstracted as the list of read results.  The unreachable `len() != 4`
branch is kept; its Rust message also debug-prints the captures, which is
elided since the branch cannot be taken (see `grammar_capture_count`).
The protocol-mismatch message (lines 180-188) likewise appends a
debug-dump of the captures after the protocol token; that suffix is
elided here too — no theorem below states that message. -/
def handle_connection (s : RestServer) (reads : List (Except IoError String)) : ConnOutcome :=
  match collectRequestLines reads with
  | .error e => .panicked e
  | .ok http_request =>
    if http_request.length < 1 then
      .errored ⟨.invalidData, "HTTP request is invalid"⟩
    else
      match httpRegexCaptures (http_request.headD "") with
      | none =>
        .errored ⟨.invalidData,
          "HTTP request is invalid - no parts found in line: " ++ http_request.headD ""⟩
      | some http_captures =>
        if http_captures.length ≠ 4 then
          .errored ⟨.invalidData,
            "HTTP request is invalid: expected 4 parts but found " ++
              toString http_captures.length⟩
        else
          let mTok := http_captures.getD 1 ""
          let methodR : Except IoError HttpMethod :=
            if mTok = "GET" then .ok .GET
            else if mTok = "POST" then .ok .POST
            else .error ⟨.invalidData, "HTTP request is invalid: unexpected method: " ++ mTok⟩
          match methodR with
          | .error e => .errored e
          | .ok method =>
            let path := http_captures.getD 2 ""
            let protocol := http_captures.getD 3 ""
            if !(strContains protocol "HTTP") then
              .errored ⟨.invalidData,
                "HTTP request is invalid: expected protocol to be HTTP but got " ++ protocol⟩
            else
              let req : HttpRequest := ⟨method, path, [], "todo"⟩
              match hmGet s.path_handler_map path with
              | none =>
                .errored ⟨.invalidData,
                  "HTTP request is invalid: No handler found for path " ++ path⟩
              | some handler =>
                let resp := handler req
                let resp_str := renderResult resp
                .wrote ("HTTP/1.1 200 OK\n" ++ resp_str ++ "\r\n\r\n")

/-- The `/ping` handler (lines 227-230): returns `Ok(Box::new("pong"))`. -/
def handle_ping (_req : HttpRequest) : Except IoError AnyBox :=
  .ok ⟨"pong"⟩

/-- A handler that always fails, exercising the error-rendering path. -/
def handle_boom (_req : HttpRequest) : Except IoError AnyBox :=
  .error ⟨.other, "boom"⟩

/-- The server `main.rs` builds, before any registration. -/
def sampleServer0 : RestServer :=
  ⟨"sample-server", "127.0.0.1", 8080, []⟩

/-- `sampleServer0` with `/ping` registered, as in `main.rs`. -/
def pingServer : RestServer :=
  (register_path sampleServer0 "/ping" handle_ping).2

/-- `sampleServer0` with a failing handler registered at `/boom`. -/
def boomServer : RestServer :=
  (register_path sampleServer0 "/boom" handle_boom).2

/-- `sampleServer0` with a handler registered at `/p`. -/
def pServer : RestServer :=
  (register_path sampleServer0 "/p" handle_ping).2

/-! ## Helper lemmas -/

/-- The lazy `unwrap`/`take_while` collection panics whenever a read
failure is reached, i.e. whenever no empty line occurs before it. -/
theorem collectRequestLines_error (e : IoError) (rest : List (Except IoError String)) :
    ∀ pre : List String, (∀ l ∈ pre, l ≠ "") →
      collectRequestLines (pre.map Except.ok ++ Except.error e :: rest) = .error e
  | [], _ => rfl
  | l :: t, h => by
    have hl : l ≠ "" := h l (by simp)
    have ht := collectRequestLines_error e rest t (fun x hx => h x (by simp [hx]))
    simp [collectRequestLines, hl, ht, Except.map]

/-! ## Claims -/

/-- C6: constructing a server with an empty name always fails with the
`InvalidConfig` error (`io::Error` of kind `InvalidInput` with the
empty-name message); for every non-empty name and any address and port,
construction succeeds and returns the name/address/port triple with an
empty handler registry. -/
theorem new_validates_name (name addr : String) (port : Nat) :
    (name = "" →
      RestServer.new name addr port =
        .error ⟨.invalidInput, "RestServer: cannot create a new server with empty name"⟩) ∧
    (name ≠ "" →
      RestServer.new name addr port = .ok ⟨name, addr, port, []⟩) := by
  constructor <;> intro h <;> simp [RestServer.new, h]

/-- Witness for `new_validates_name` at the empty name and at
`"sample-server"`. -/
theorem new_validates_name_witness :
    RestServer.new "" "127.0.0.1" 8080 =
      .error ⟨.invalidInput, "RestServer: cannot create a new server with empty name"⟩ ∧
    RestServer.new "sample-server" "127.0.0.1" 8080 =
      .ok ⟨"sample-server", "127.0.0.1", 8080, []⟩ :=
  ⟨(new_validates_name "" "127.0.0.1" 8080).1 rfl,
   (new_validates_name "sample-server" "127.0.0.1" 8080).2 (by decide)⟩

/-- C5: the first registration of a path succeeds and inserts the handler;
registering the same path again fails with the `DuplicatePath` error
(`io::Error` of kind `Other` with the set-handler-twice message) and
returns the server unchanged, so the originally registered handler remains
active. -/
theorem register_path_duplicate (s : RestServer) (path : String) (f g : HandlerFunc)
    (h : hmContains s.path_handler_map path = false) :
    (register_path s path f).1 = .ok () ∧
    hmGet (register_path s path f).2.path_handler_map path = some f ∧
    register_path (register_path s path f).2 path g =
      (.error ⟨.other,
        "HttpServer [" ++ s.name ++ "] path [" ++ path ++ "]: attempted to set handler twice"⟩,
       (register_path s path f).2) := by
  have hstep : register_path s path f =
      (.ok (), { s with path_handler_map := hmInsert s.path_handler_map path f }) := by
    simp [register_path, h]
  have hcont : hmContains (hmInsert s.path_handler_map path f) path = true := by
    simp [hmContains, hmInsert]
  refine ⟨?_, ?_, ?_⟩
  · rw [hstep]
  · rw [hstep]; simp [hmGet, hmInsert, List.find?]
  · rw [hstep]; simp [register_path, hcont]

/-- Witness for `register_path_duplicate`: registering `/ping` on the
fresh sample server, then attempting it a second time. -/
theorem register_path_duplicate_witness :
    (register_path sampleServer0 "/ping" handle_ping).1 = .ok () ∧
    hmGet (register_path sampleServer0 "/ping" handle_ping).2.path_handler_map "/ping" =
      some handle_ping ∧
    register_path (register_path sampleServer0 "/ping" handle_ping).2 "/ping" handle_boom =
      (.error ⟨.other,
        "HttpServer [" ++ sampleServer0.name ++ "] path [" ++ "/ping" ++
          "]: attempted to set handler twice"⟩,
       (register_path sampleServer0 "/ping" handle_ping).2) :=
  register_path_duplicate sampleServer0 "/ping" handle_ping handle_boom rfl

/-- C10: a successful match of `HTTP_REGEX_PATTERN` always carries exactly
four capture groups (the whole match plus method, path and protocol), so
the `len() != 4` branch of `handle_connection` is unreachable. -/
theorem grammar_capture_count (line : String) (caps : List String)
    (h : httpRegexCaptures line = some caps) : caps.length = 4 := by
  unfold httpRegexCaptures at h
  cases hf : findCapturesL line.toList with
  | none => rw [hf] at h; exact absurd h (by simp)
  | some t =>
    rw [hf] at h
    simp only [Option.map_some', Option.some.injEq] at h
    rw [← h]
    rfl

/-- Witness for `grammar_capture_count` at `GET / HTTP/1.1`. -/
theorem grammar_capture_count_witness :
    (["GET / HTTP/1.1", "GET", "/", "HTTP/1.1"] : List String).length = 4 :=
  grammar_capture_count "GET / HTTP/1.1" ["GET / HTTP/1.1", "GET", "/", "HTTP/1.1"]
    (by decide)

/-- C9: the pattern is not anchored at the start of the line, so
`XGET /p HTTP/1.1` — a non-empty non-whitespace prefix directly before the
method token — still matches, capturing method `GET`, and handling
proceeds exactly as for a GET request. -/
theorem unanchored_method_accepted :
    httpRegexCaptures "XGET /p HTTP/1.1" =
      some ["GET /p HTTP/1.1", "GET", "/p", "HTTP/1.1"] ∧
    handle_connection pServer [.ok "XGET /p HTTP/1.1"] =
      .wrote "HTTP/1.1 200 OK\nAny { .. }\r\n\r\n" := by
  constructor <;> decide

/-- C1 (code evaluation): dispatching `GET /ping HTTP/1.1` to the
registered `/ping` handler — which returns `Ok(Box::new("pong"))` — writes
a body of `Any { .. }`, not `pong`: `format!` on a `Box<dyn Any>` goes
through `impl Debug for dyn Any` and discards the payload.  A handler
error, by contrast, does reach the body as `error: ` plus the message. -/
theorem ping_payload_lost_in_body :
    handle_connection pingServer [.ok "GET /ping HTTP/1.1"] =
      .wrote "HTTP/1.1 200 OK\nAny { .. }\r\n\r\n" ∧
    handle_ping ⟨.GET, "/ping", [], "todo"⟩ = .ok ⟨"pong"⟩ ∧
    handle_connection boomServer [.ok "GET /boom HTTP/1.1"] =
      .wrote "HTTP/1.1 200 OK\nerror: boom\r\n\r\n" :=
  ⟨by decide, rfl, by decide⟩

/-- C2 (counterexample): on a connection whose very first read fails, the
connection handler does not return the I/O failure to its caller — line
121's `unwrap` panics instead. -/
theorem read_error_not_returned :
    handle_connection sampleServer0
        [.error ⟨.connectionReset, "Connection reset by peer"⟩] =
      .panicked ⟨.connectionReset, "Connection reset by peer"⟩ ∧
    handle_connection sampleServer0
        [.error ⟨.connectionReset, "Connection reset by peer"⟩] ≠
      .errored ⟨.connectionReset, "Connection reset by peer"⟩ := by
  constructor <;> decide

/-- C2 (amended): whenever the line-by-line read fails before an empty
line is seen, `handle_connection` panics via `unwrap` — aborting the
connection's handling with no partial response written — rather than
returning the I/O failure as an error value. -/
theorem read_error_panics (s : RestServer) (pre : List String) (e : IoError)
    (rest : List (Except IoError String)) (h : ∀ l ∈ pre, l ≠ "") :
    handle_connection s (pre.map Except.ok ++ Except.error e :: rest) = .panicked e := by
  have hcol := collectRequestLines_error e rest pre h
  simp [handle_connection, hcol]

/-- Witness for `read_error_panics`: one good line, then a reset. -/
theorem read_error_panics_witness :
    handle_connection sampleServer0
        [Except.ok "GET /ping HTTP/1.1", Except.error ⟨.connectionReset, "reset"⟩] =
      .panicked ⟨.connectionReset, "reset"⟩ :=
  read_error_panics sampleServer0 ["GET /ping HTTP/1.1"] ⟨.connectionReset, "reset"⟩ []
    (by decide)

/-- C7: when the grammar matches but the captured method token is neither
`GET` nor `POST` (exact, case-sensitive comparison), handling fails with
the `InvalidRequest` error carrying `unexpected method: ` and the token. -/
theorem unexpected_method_rejected (s : RestServer) (reads : List (Except IoError String))
    (lines : List String) (w m p pr : String)
    (hcol : collectRequestLines reads = .ok lines) (hne : lines ≠ [])
    (hcap : httpRegexCaptures (lines.headD "") = some [w, m, p, pr])
    (hm1 : m ≠ "GET") (hm2 : m ≠ "POST") :
    handle_connection s reads =
      .errored ⟨.invalidData, "HTTP request is invalid: unexpected method: " ++ m⟩ := by
  have hlen : ¬ lines.length < 1 := by
    cases lines with
    | nil => exact absurd rfl hne
    | cons a t => simp
  have hcap2 : httpRegexCaptures (lines.head?.getD "") = some [w, m, p, pr] := by
    simpa using hcap
  simp [handle_connection, hcol, hlen, hcap2, hm1, hm2]

/-- Witness for `unexpected_method_rejected`: `DELETE /x HTTP/1.1` passes
the grammar stage and is rejected at the method check. -/
theorem unexpected_method_rejected_witness :
    handle_connection sampleServer0 [Except.ok "DELETE /x HTTP/1.1"] =
      .errored ⟨.invalidData, "HTTP request is invalid: unexpected method: " ++ "DELETE"⟩ :=
  unexpected_method_rejected sampleServer0 [Except.ok "DELETE /x HTTP/1.1"]
    ["DELETE /x HTTP/1.1"] "DELETE /x HTTP/1.1" "DELETE" "/x" "HTTP/1.1"
    rfl (by decide) (by decide) (by decide) (by decide)

/-- C8: when a request parses and its method and protocol pass the checks
but the path has no handler in the registry — lookup is an exact string
comparison, with no normalization of any kind — handling fails with the
`NotFound` error (`No handler found for path` plus the path). -/
theorem missing_path_not_found (s : RestServer) (reads : List (Except IoError String))
    (lines : List String) (w m p pr : String)
    (hcol : collectRequestLines reads = .ok lines) (hne : lines ≠ [])
    (hcap : httpRegexCaptures (lines.headD "") = some [w, m, p, pr])
    (hm : m = "GET" ∨ m = "POST") (hpr : strContains pr "HTTP" = true)
    (hget : hmGet s.path_handler_map p = none) :
    handle_connection s reads =
      .errored ⟨.invalidData, "HTTP request is invalid: No handler found for path " ++ p⟩ := by
  have hlen : ¬ lines.length < 1 := by
    cases lines with
    | nil => exact absurd rfl hne
    | cons a t => simp
  have hcap2 : httpRegexCaptures (lines.head?.getD "") = some [w, m, p, pr] := by
    simpa using hcap
  rcases hm with hm | hm <;> subst hm <;>
    simp [handle_connection, hcol, hlen, hcap2, hpr, hget]

/-- Witness for `missing_path_not_found`: `GET /missing HTTP/1.1` against
the sample server, whose registry is empty. -/
theorem missing_path_not_found_witness :
    handle_connection sampleServer0 [Except.ok "GET /missing HTTP/1.1"] =
      .errored ⟨.invalidData,
        "HTTP request is invalid: No handler found for path " ++ "/missing"⟩ :=
  missing_path_not_found sampleServer0 [Except.ok "GET /missing HTTP/1.1"]
    ["GET /missing HTTP/1.1"] "GET /missing HTTP/1.1" "GET" "/missing" "HTTP/1.1"
    rfl (by decide) (by decide) (Or.inl rfl) (by decide) rfl

/-- C3: any request that reaches the handler-invocation step produces a
written response beginning with the literal status line
`HTTP/1.1 200 OK`, whether the handler succeeds or fails; a handler
failure is rendered into the body by `renderResult` instead of being
propagated as a connection failure. -/
theorem handler_reached_writes_200 (s : RestServer) (reads : List (Except IoError String))
    (lines : List String) (w m p pr : String) (hfun : HandlerFunc)
    (hcol : collectRequestLines reads = .ok lines) (hne : lines ≠ [])
    (hcap : httpRegexCaptures (lines.headD "") = some [w, m, p, pr])
    (hm : m = "GET" ∨ m = "POST") (hpr : strContains pr "HTTP" = true)
    (hget : hmGet s.path_handler_map p = some hfun) :
    handle_connection s reads =
      .wrote ("HTTP/1.1 200 OK\n" ++
        renderResult (hfun ⟨if m = "GET" then .GET else .POST, p, [], "todo"⟩) ++
        "\r\n\r\n") := by
  have hlen : ¬ lines.length < 1 := by
    cases lines with
    | nil => exact absurd rfl hne
    | cons a t => simp
  have hcap2 : httpRegexCaptures (lines.head?.getD "") = some [w, m, p, pr] := by
    simpa using hcap
  rcases hm with hm | hm <;> subst hm <;>
    simp [handle_connection, hcol, hlen, hcap2, hpr, hget]

/-- Witness for `handler_reached_writes_200` at a handler that fails: the
response is still a 200 with the error rendered into the body. -/
theorem handler_reached_writes_200_witness :
    handle_connection boomServer [Except.ok "GET /boom HTTP/1.1"] =
      .wrote ("HTTP/1.1 200 OK\n" ++
        renderResult (handle_boom ⟨if "GET" = "GET" then .GET else .POST, "/boom", [], "todo"⟩) ++
        "\r\n\r\n") :=
  handler_reached_writes_200 boomServer [Except.ok "GET /boom HTTP/1.1"]
    ["GET /boom HTTP/1.1"] "GET /boom HTTP/1.1" "GET" "/boom" "HTTP/1.1" handle_boom
    rfl (by decide) (by decide) (Or.inl rfl) (by decide) rfl

/-- A match attempt at a fixed position succeeds exactly when that suffix
has the request-line shape with whitespace separators. -/
theorem tryMatchAt_isSome (cs : List Char) :
    (tryMatchAt cs).isSome = isRequestLineForm isWsChar cs := by
  unfold tryMatchAt isRequestLineForm
  cases stripMethod cs with
  | none => rfl
  | some mr =>
    obtain ⟨m, r1⟩ := mr
    cases r1 with
    | nil => rfl
    | cons w1 r2 =>
      by_cases hw1 : isWsChar w1 = true
      · cases r2 with
        | nil => simp [hw1]
        | cons c r3 =>
          by_cases hc : c = '/'
          · subst hc
            cases hdrop : r3.dropWhile (fun d => !(isWsChar d)) with
            | nil => simp [hw1, hdrop]
            | cons w2 r5 =>
              by_cases hw2 : isWsChar w2 = true
              · by_cases hr5 : (!r5.isEmpty && r5.all fun d => !(isWsChar d)) = true
                · simp [hw1, hdrop, hw2, hr5]
                · simp [hw1, hdrop, hw2, hr5]
              · simp [hw1, hdrop, hw2]
          · simp [hw1, hc]
      · simp [hw1]

/-- The compiled pattern finds a match in a line exactly when some suffix
of the line has the whitespace-separated request-line shape. -/
theorem findCapturesL_isSome (cs : List Char) :
    (findCapturesL cs).isSome = hasRequestLineFormSuffix isWsChar cs := by
  induction cs with
  | nil => rfl
  | cons c rest ih =>
    have hmatch := tryMatchAt_isSome (c :: rest)
    unfold findCapturesL hasRequestLineFormSuffix
    cases ht : tryMatchAt (c :: rest) with
    | some caps =>
      rw [ht] at hmatch
      simp [← hmatch]
    | none =>
      rw [ht] at hmatch
      simp [← hmatch, ih]

/-- C4 (amended): the request-line pattern matches exactly the lines with
an end-anchored suffix of the shape `METHOD`, one whitespace character,
`PATH` (one or more non-whitespace characters beginning with a slash), one
whitespace character, `PROTOCOL` (one or more non-whitespace characters);
and a line the pattern does not match fails with the `InvalidRequest`
error naming the line. -/
theorem grammar_matches_whitespace_form :
    (∀ line : String,
      (httpRegexCaptures line).isSome = hasRequestLineFormSuffix isWsChar line.toList) ∧
    (∀ (s : RestServer) (reads : List (Except IoError String)) (lines : List String),
      collectRequestLines reads = .ok lines → lines ≠ [] →
      httpRegexCaptures (lines.headD "") = none →
      handle_connection s reads =
        .errored ⟨.invalidData,
          "HTTP request is invalid - no parts found in line: " ++ lines.headD ""⟩) := by
  constructor
  · intro line
    unfold httpRegexCaptures
    cases h : findCapturesL line.toList with
    | none => rw [← findCapturesL_isSome, h]; rfl
    | some t => rw [← findCapturesL_isSome, h]; rfl
  · intro s reads lines hcol hne hcap
    have hlen : ¬ lines.length < 1 := by
      cases lines with
      | nil => exact absurd rfl hne
      | cons a t => simp
    have hcap2 : httpRegexCaptures (lines.head?.getD "") = none := by
      simpa using hcap
    have hout : "HTTP request is invalid - no parts found in line: " ++ lines.headD "" =
        "HTTP request is invalid - no parts found in line: " ++ lines.head?.getD "" := by
      simp
    rw [hout]
    simp [handle_connection, hcol, hlen, hcap2]

/-- C4 (counterexample): a tab-separated request line is matched by the
pattern although it has no suffix of the single-space shape the claim
describes: `\s` accepts any whitespace character, not only the space. -/
theorem tab_request_line_matches :
    (httpRegexCaptures "GET\t/p HTTP/1.1").isSome = true ∧
    hasRequestLineFormSuffix (fun c => c == ' ') "GET\t/p HTTP/1.1".toList = false := by
  constructor <;> decide

/-- Witness for `grammar_matches_whitespace_form`: the characterization at
a tab-separated line, and the `InvalidRequest` failure at the
non-matching line `hello`. -/
theorem grammar_matches_whitespace_form_witness :
    ((httpRegexCaptures "GET\t/p HTTP/1.1").isSome =
      hasRequestLineFormSuffix isWsChar "GET\t/p HTTP/1.1".toList) ∧
    handle_connection sampleServer0 [Except.ok "hello"] =
      .errored ⟨.invalidData,
        "HTTP request is invalid - no parts found in line: " ++ ["hello"].headD ""⟩ :=
  ⟨grammar_matches_whitespace_form.1 "GET\t/p HTTP/1.1",
   grammar_matches_whitespace_form.2 sampleServer0 [Except.ok "hello"] ["hello"]
     rfl (by decide) (by decide)⟩

end Rustful
